import Mathlib

/-!
# Verification of the biomedica-etl core (pmc_oa)

Shallow embedding, in Lean 4, of the core logic of the `pmc_oa` package
(`src/pmc_oa/build_json.py`, `src/pmc_oa/download_batch.py`,
`scripts/04_build_json.py`): the shard-rotating JSON writer, the resume
controller, the NXML caption/context extractors, and the article-record
assembler.  Python dicts are modelled as association lists (insertion
order preserved, unique keys), Python `None` as an explicit `null` value,
file I/O as explicit state (a directory is a list of `(index, contents)`
pairs), and each `try/except` site as an `Option`-valued input describing
whether the guarded extraction succeeded.

All definitions follow the Python source; theorems at the end settle the
specification claims.
-/

set_option autoImplicit false

namespace PmcOa

/-! ## Python-value model

JSON-serialisable Python values as they appear in article records:
`None`, strings, lists and (ordered) dicts. -/

inductive Value where
  | null
  | vstr (s : String)
  | vlist (l : List Value)
  | vdict (d : List (String × Value))

/-- `some s` for a Python string, `none` for Python `None`. -/
def optValue : Option String → Value
  | none => Value.null
  | some s => Value.vstr s

/-! ## Ordered-dict operations

Python `dict` semantics on association lists: setting an existing key
replaces its value in place (keeping its position), setting a new key
appends it; `update` sets every pair of the second dict in order;
`pop` removes a key. -/

/-- `d[k] = v` on an association list: replace the value of an existing
key in place (keeping its position), append a new key at the end.
Shared by every dict-like structure in the model (record dicts,
attribute dicts, the shard directory). -/
def assocSet {κ ν : Type} [DecidableEq κ] : List (κ × ν) → κ → ν → List (κ × ν)
  | [], k, v => [(k, v)]
  | (k', v') :: rest, k, v =>
      if k' = k then (k, v) :: rest else (k', v') :: assocSet rest k v

abbrev dictSet (d : List (String × Value)) (k : String) (v : Value) :
    List (String × Value) :=
  assocSet d k v

def dictUpdate (d new : List (String × Value)) : List (String × Value) :=
  new.foldl (fun acc p => dictSet acc p.1 p.2) d

def dictPop (d : List (String × Value)) (k : String) : List (String × Value) :=
  d.filter (fun p => p.1 ≠ k)

abbrev dictGet (d : List (String × Value)) (k : String) : Option Value :=
  d.lookup k

/-! ## Python string helpers -/

/-- The whitespace characters removed by Python's `str.strip()`
(ASCII subset, which is all that occurs in the data). -/
def pyWhitespace (c : Char) : Bool :=
  c = ' ' || c = '\t' || c = '\n' || c = '\r' || c = '\x0b' || c = '\x0c'

/-- Python `str.strip()`. -/
def pyStrip (s : String) : String :=
  ((s.toList.dropWhile pyWhitespace).reverse.dropWhile pyWhitespace).reverse.asString

/-- `os.path.basename`: the part after the last `/`. -/
def basename (s : String) : String :=
  match (s.toList.reverse.takeWhile (· ≠ '/')).reverse with
  | cs => cs.asString

/-- Python `s.replace(pat, repl)` for a single-character pattern (every
`replace` in the source has one). -/
def pyReplaceChar (pat : Char) (repl : String) (s : String) : String :=
  (s.toList.foldr (fun c acc => if c = pat then repl.toList ++ acc else c :: acc) []).asString

/-! ## Shard-rotating JSON writer (`build_json`, lines 46-116, and `get_next_index`)

The JSON output directory is modelled as an association list from shard
index to the list of records the shard file holds (only files matching
`<filelist_name>_<i>.json` matter to the scanner, so indices suffice).
The writer state also carries the index of the currently open shard
(the code's `json_file_path` variable). -/

structure WriterState (α : Type) where
  files : List (Nat × List α)
  currentIdx : Nat

/-- `get_next_index`: scan the directory for `<name>_<i>.json`, return the
maximum index found plus one, or `0` when there are none
(the code starts from a `max_version` of `-1`). -/
def getNextIndex {α : Type} (files : List (Nat × List α)) : Nat :=
  files.foldl (fun m p => max m (p.1 + 1)) 0

/-- Write `contents` to shard file `k`: replace the file if present,
create it otherwise. -/
abbrev setFile {α : Type} (files : List (Nat × List α)) (k : Nat) (contents : List α) :
    List (Nat × List α) :=
  assocSet files k contents

/-- One iteration of the `write to json` block of `build_json`
(lines 84-116).  The current shard's array is loaded; when its length
equals `batch_size - 1` a fresh shard with index `get_next_index` is
initialised empty and `json_file_path` is repointed at it, but the
record is appended to the array just loaded and written back through
the still-open handle `f` of the *old* file; otherwise the record is
appended to the current shard.  The comparison is carried out over `Int`
because the Python `batch_size - 1` may be `-1`. -/
def appendRecord {α : Type} (batchSize : Nat) (st : WriterState α) (r : α) :
    WriterState α :=
  let cur := (st.files.lookup st.currentIdx).getD []
  if (cur.length : Int) = (batchSize : Int) - 1 then
    let newIdx := getNextIndex st.files
    let files1 := setFile st.files newIdx []
    let files2 := setFile files1 st.currentIdx (cur ++ [r])
    ⟨files2, newIdx⟩
  else
    ⟨setFile st.files st.currentIdx (cur ++ [r]), st.currentIdx⟩

/-- Start of `build_json` (lines 46-51): shard `<name>_0.json` is
initialised to an empty array only if it does not already exist, and the
writer begins with shard `0` open. -/
def initWriter {α : Type} (files : List (Nat × List α)) : WriterState α :=
  ⟨if (files.lookup 0).isSome then files else setFile files 0 [], 0⟩

/-- The writer driven over a list of records (the per-article loop). -/
def runWriter {α : Type} (batchSize : Nat) (st : WriterState α) (records : List α) :
    WriterState α :=
  records.foldl (appendRecord batchSize) st

/-- Total number of records across all shard files. -/
def totalRecords {α : Type} (st : WriterState α) : Nat :=
  (st.files.map (fun p => p.2.length)).sum

/-! ## Batch-level resume (`scripts/04_build_json.py` and
`download_batch.compare_csv_row_counts` / `create_subset_based_on_file_diff`)

A manifest row (one work item, from `path_generator`). -/

structure Row where
  File : String
  Citation : String
  Accession_ID : String
  Date : String
  License : String
  PMID : String

/-- An entry of the completed log: `(Accession_ID, shard index of the
json path recorded for it)`. -/
abbrev CompletedEntry := String × Nat

/-- `compare_csv_row_counts`: `True` iff the raw CSV line counts match.
Callers pass the full line count of each file, header line included. -/
def compare_csv_row_counts (rowCount1 rowCount2 : Nat) : Bool :=
  rowCount1 == rowCount2

/-- `create_subset_based_on_file_diff`: keep the manifest rows whose
`Accession_ID` is not among the completed log's `Accession_ID`s
(the pandas set-difference + `isin` filter, which preserves manifest
order). -/
def create_subset_based_on_file_diff (manifest : List Row)
    (completedIds : List String) : List Row :=
  manifest.filter (fun r => ¬ completedIds.contains r.Accession_ID)

/-- The work set `scripts/04_build_json.py` (lines 39-62) hands to
`build_json`: with no completed log the whole manifest; with a completed
log whose row count (header included) matches the manifest's, nothing
(the batch is skipped); otherwise the accession-id set difference. -/
def resumeWorkSet (manifest : List Row) (completedLog : Option (List CompletedEntry)) :
    List Row :=
  match completedLog with
  | none => manifest
  | some completed =>
      if compare_csv_row_counts (1 + manifest.length) (1 + completed.length) then
        []
      else
        create_subset_based_on_file_diff manifest (completed.map Prod.fst)

/-! ## XML tree model

An element as held by `xml.etree.ElementTree` / `lxml.etree`: tag,
ordered attribute dict, text before the first child, children, and the
tail text that follows the element's closing tag.  Namespaced attribute
names (Clark notation `{uri}local`) are written with their prefix, so
the `xlink:href` of a `graphic` element is the attribute key
`"xlink:href"`. -/

inductive XML where
  | elem (tag : String) (attrs : List (String × String)) (text : String)
         (children : List XML) (tail : String)

def XML.tag : XML → String
  | .elem t _ _ _ _ => t

def XML.attrs : XML → List (String × String)
  | .elem _ a _ _ _ => a

def XML.text : XML → String
  | .elem _ _ t _ _ => t

def XML.children : XML → List XML
  | .elem _ _ _ cs _ => cs

def XML.tail : XML → String
  | .elem _ _ _ _ tl => tl

/-- `elem.attrib.get(k)`; absent text is modelled as `""`. -/
def XML.getAttr (e : XML) (k : String) : Option String :=
  e.attrs.lookup k

/-- `elem.set(k, v)` (in-place attribute assignment). -/
def XML.setAttr : XML → String → String → XML
  | .elem t a x cs tl, k, v => .elem t (assocSet a k v) x cs tl

/- All strict descendants of an element, in document order (what
`findall(".//tag")` iterates over before filtering on the tag). -/
mutual

def XML.descendantsSelf : XML → List XML
  | .elem t a x cs tl => .elem t a x cs tl :: XML.descendantsList cs

def XML.descendantsList : List XML → List XML
  | [] => []
  | c :: cs => XML.descendantsSelf c ++ XML.descendantsList cs

end

def XML.descendants (doc : XML) : List XML :=
  XML.descendantsList doc.children

/- First strict descendant with the given tag, document order:
`elem.find(".//tg")`. -/
mutual

def XML.findDesc (tg : String) : XML → Option XML
  | .elem _ _ _ cs _ => XML.findDescList tg cs

def XML.findDescList (tg : String) : List XML → Option XML
  | [] => none
  | c :: cs =>
      if c.tag = tg then some c
      else
        match XML.findDesc tg c with
        | some r => some r
        | none => XML.findDescList tg cs

end

/- Concatenated text content of a subtree, trailing tail included:
`etree.tostring(e, method='text', encoding='unicode')` (lxml serialises
the element's own tail as well, `with_tail` defaulting to `True`). -/
mutual

def XML.textContent : XML → String
  | .elem _ _ t cs tl => t ++ XML.textContentList cs ++ tl

def XML.textContentList : List XML → String
  | [] => ""
  | c :: cs => XML.textContent c ++ XML.textContentList cs

end

/-! Paths: an element of a tree is addressed by the list of child
indices leading to it; this stands in for Python object identity, which
the source relies on when it mutates elements in place. -/

/-- Subtree lookup along a path. -/
def XML.getAt : XML → List Nat → Option XML
  | e, [] => some e
  | .elem _ _ _ cs _, i :: p =>
      match cs.get? i with
      | some c => XML.getAt c p
      | none => none

/-- Replace the subtree at a path (identity when the path dangles). -/
def XML.setAt : XML → List Nat → XML → XML
  | _, [], newE => newE
  | .elem t a x cs tl, i :: p, newE =>
      match cs.get? i with
      | some c => .elem t a x (cs.set i (XML.setAt c p newE)) tl
      | none => .elem t a x cs tl

/- Paths of the whole subtree rooted at `pre`, pre-order (self first). -/
mutual

def XML.subPaths : XML → List Nat → List (List Nat)
  | .elem _ _ _ cs _, pre => pre :: XML.subPathsList cs pre 0

def XML.subPathsList : List XML → List Nat → Nat → List (List Nat)
  | [], _, _ => []
  | c :: cs, pre, i => XML.subPaths c (pre ++ [i]) ++ XML.subPathsList cs pre (i + 1)

end

/-- Paths of all strict descendants of the root, document order. -/
def XML.descendantPaths (doc : XML) : List (List Nat) :=
  match XML.subPaths doc [] with
  | [] => []
  | _ :: rest => rest

/-! ## Caption extraction (`extract_caption_from_nxml`, build_json.py 601-634) -/

/-- The xpath predicate `//graphic[@xlink:href='imageId']`. -/
def isMatchingGraphic (imageId : String) (e : XML) : Bool :=
  e.tag == "graphic" && e.getAttr "xlink:href" == some imageId

/- First element of the document (descendant-or-self, pre-order) that
is a graphic linked to `imageId`, returned as its parent:
`graphic[0].getparent() if graphic else None` over
`tree.xpath("//graphic[@xlink:href='...']")`.  `none`: no such graphic;
`some none`: the graphic is the document root (no parent);
`some (some p)`: parent `p`. -/
mutual

def findGraphicParent (imageId : String) (parent : Option XML) :
    XML → Option (Option XML)
  | .elem t a x cs tl =>
      if isMatchingGraphic imageId (.elem t a x cs tl) then some parent
      else findGraphicParentList imageId (.elem t a x cs tl) cs

def findGraphicParentList (imageId : String) (parent : XML) :
    List XML → Option (Option XML)
  | [] => none
  | c :: cs =>
      match findGraphicParent imageId (some parent) c with
      | some r => some r
      | none => findGraphicParentList imageId parent cs

end

/-- `extract_caption_from_nxml(file_path, image_identifier)` with the
parsed document passed directly. -/
def extract_caption_from_nxml (doc : XML) (imageIdentifier : String) : String :=
  match findGraphicParent imageIdentifier none doc with
  | some (some figure) =>
      match figure.findDesc "caption" with
      | some caption => pyStrip caption.textContent
      | none => "No caption found"
  | _ => ""

/-! ## Context extraction (`extract_context` and helpers, build_json.py 718-846) -/

/-- `normalize_id`: for a truthy rid, strip it and replace every hyphen
with a dot; `None` (and the falsy empty string) stays `None`. -/
def normalize_id : Option String → Option String
  | some rid => if rid ≠ "" then some (pyReplaceChar '-' "." (pyStrip rid)) else none
  | none => none

/-- `map_rid_to_image`: walk `findall(".//fig")`, normalise each fig's
`id`, find its first descendant `graphic`, and map the normalised id to
the basename of the graphic's `xlink:href` (truthy values only). -/
def map_rid_to_image (doc : XML) : List (String × String) :=
  doc.descendants.foldl
    (fun m fig =>
      if fig.tag = "fig" then
        match normalize_id (fig.getAttr "id"), fig.findDesc "graphic" with
        | some rid, some graphic =>
            if rid ≠ "" then
              match graphic.getAttr "xlink:href" with
              | some imagePath =>
                  if imagePath ≠ "" then assocSet m rid (basename imagePath) else m
              | none => m
            else m
        | _, _ => m
      else m)
    []

/-- `find_parent(root, child)`: scanning `root.iter()` for the element
whose direct children contain `child` finds exactly the direct parent;
it is returned only when its tag is `p`.  (Identity of the child is
modelled by its path.) -/
def find_parent (tree : XML) (childPath : List Nat) : Option (List Nat) :=
  match childPath with
  | [] => none
  | _ :: _ =>
      let pp := childPath.dropLast
      match tree.getAt pp with
      | some parent => if parent.tag = "p" then some pp else none
      | none => none

/-- `xml.etree.ElementTree._escape_cdata`. -/
def escape_cdata (s : String) : String :=
  pyReplaceChar '>' "&gt;" (pyReplaceChar '<' "&lt;" (pyReplaceChar '&' "&amp;" s))

/-- `xml.etree.ElementTree._escape_attrib`. -/
def escape_attrib (s : String) : String :=
  pyReplaceChar '\t' "&#09;" (pyReplaceChar '\n' "&#10;" (pyReplaceChar '\r' "&#13;"
    (pyReplaceChar '\"' "&quot;" (pyReplaceChar '>' "&gt;"
      (pyReplaceChar '<' "&lt;" (pyReplaceChar '&' "&amp;" s))))))

def attrsString (attrs : List (String × String)) : String :=
  attrs.foldl (fun acc p => acc ++ " " ++ p.1 ++ "=\"" ++ escape_attrib p.2 ++ "\"") ""

/- `ET.tostring(elem, encoding='unicode', method='xml')`: serialise the
element (short empty-element form when it has neither text nor
children), its escaped text, its children recursively, and finally its
own escaped tail — `_serialize_xml` writes `elem.tail` for the element
it is called on as well. -/
mutual

def serializeXml : XML → String
  | .elem tg attrs t cs tl =>
      (if t ≠ "" ∨ cs.isEmpty = false then
        "<" ++ tg ++ attrsString attrs ++ ">" ++ escape_cdata t ++
          serializeXmlList cs ++ "</" ++ tg ++ ">"
      else "<" ++ tg ++ attrsString attrs ++ " />") ++
      (if tl ≠ "" then escape_cdata tl else "")

def serializeXmlList : List XML → String
  | [] => ""
  | c :: cs => serializeXml c ++ serializeXmlList cs

end

/-- The `elem.tag == 'xref' and elem.attrib.get('ref-type') == 'fig'`
test of `process_element` / `findall(".//xref[@ref-type='fig']")`. -/
def isFigXref (e : XML) : Bool :=
  e.tag == "xref" && e.getAttr "ref-type" == some "fig"

/- `process_element` inside `clean_paragraph_except_xref`
(build_json.py 768-791).  For a figure xref whose normalised rid is in
the map the element's `rid` attribute is *mutated in place* to the image
file name and the element is then serialised (children and tail
included); afterwards — unconditionally — its children are processed
recursively and its tail is appended once more.  For any other element
its text, processed children and tail are emitted.  The result is the
list of emitted parts together with the mutated element. -/
mutual

def processElement (ridMap : List (String × String)) : XML → List String × XML
  | .elem tg attrs t cs tl =>
      if isFigXref (.elem tg attrs t cs tl) then
        match (normalize_id (attrs.lookup "rid")).bind (fun r => ridMap.lookup r) with
        | some img =>
            let attrs1 := assocSet attrs "rid" img
            let serialized := serializeXml (.elem tg attrs1 t cs tl)
            let (parts, cs1) := processChildren ridMap cs
            (serialized :: parts ++ (if tl ≠ "" then [tl] else []),
             .elem tg attrs1 t cs1 tl)
        | none =>
            let (parts, cs1) := processChildren ridMap cs
            (parts ++ (if tl ≠ "" then [tl] else []), .elem tg attrs t cs1 tl)
      else
        let (parts, cs1) := processChildren ridMap cs
        ((if t ≠ "" then [t] else []) ++ parts ++ (if tl ≠ "" then [tl] else []),
         .elem tg attrs t cs1 tl)

def processChildren (ridMap : List (String × String)) : List XML → List String × List XML
  | [] => ([], [])
  | c :: cs =>
      let (p1, c1) := processElement ridMap c
      let (p2, cs1) := processChildren ridMap cs
      (p1 ++ p2, c1 :: cs1)

end

/-- `clean_paragraph_except_xref`: joined parts plus the paragraph as
mutated by the cleaning pass. -/
def clean_paragraph_except_xref (paragraph : XML) (ridMap : List (String × String)) :
    String × XML :=
  let (parts, p1) := processElement ridMap paragraph
  (String.join parts, p1)

/-- `combine_paragraphs`: group `(image_id, paragraph)` pairs into an
ordered dict of lists, keys in first-appearance order. -/
def combine_paragraphs (pairs : List (String × String)) : List (String × List String) :=
  pairs.foldl
    (fun acc p =>
      if (acc.lookup p.1).isSome then
        acc.map (fun q => if q.1 = p.1 then (q.1, q.2 ++ [p.2]) else q)
      else acc ++ [(p.1, [p.2])])
    []

/-- `remove_duplicates`: drop repeated paragraphs, keeping the first
occurrence of each. -/
def remove_duplicates (paragraphs : List String) : List String :=
  paragraphs.foldl (fun acc p => if acc.contains p then acc else acc ++ [p]) []

/-- `extract_context(nxml_path, remove_redundant=True)`.  The xref list
is the `findall` snapshot over the *original* tree; each iteration reads
the (possibly already mutated) `rid` attribute of its xref, and a
successful iteration mutates the enclosing paragraph in place via
`clean_paragraph_except_xref`, so the tree is threaded through the
fold. -/
def extract_context (doc : XML) (removeRedundant : Bool := true) :
    List (String × List String) :=
  let idMap := map_rid_to_image doc
  let xrefPaths := (XML.descendantPaths doc).filter
    (fun p => match doc.getAt p with
      | some e => isFigXref e
      | none => false)
  let step := fun (st : XML × List (String × String)) (path : List Nat) =>
    match st.1.getAt path with
    | none => st
    | some xref =>
        match normalize_id (xref.getAttr "rid") with
        | none => st
        | some rid =>
            if rid ≠ "" then
              match idMap.lookup rid with
              | none => st
              | some img =>
                  match find_parent st.1 path with
                  | none => st
                  | some ppath =>
                      match st.1.getAt ppath with
                      | none => st
                      | some para =>
                          let (txt, para1) := clean_paragraph_except_xref para idMap
                          (st.1.setAt ppath para1, st.2 ++ [(img, txt)])
            else st
  let pairs := (xrefPaths.foldl step (doc, [])).2
  let combined := combine_paragraphs pairs
  if removeRedundant then combined.map (fun p => (p.1, remove_duplicates p.2))
  else combined

/-! ## Citation-derived fields (`extract_journal`,
`extract_date_from_citation`, `parse_month_str`, `parse_season_to_month`,
`ensure_unix`) -/

def isDigitChar (c : Char) : Bool := '0' ≤ c && c ≤ '9'

def isAlphaChar (c : Char) : Bool := ('A' ≤ c && c ≤ 'Z') || ('a' ≤ c && c ≤ 'z')

/-- `\w` of the `re` module (ASCII part). -/
def wordChar (c : Char) : Bool := isDigitChar c || isAlphaChar c || c = '_'

/-- The character class `[A-Za-z\s().,-]` of `extract_journal`'s regex. -/
def journalClassChar (c : Char) : Bool :=
  isAlphaChar c || pyWhitespace c || c = '(' || c = ')' || c = '.' || c = ',' || c = '-'

/- The lazy match `([A-Za-z\s().,-]+?)[.;]` anchored at the start
(`re.match`): the shortest nonempty class prefix followed by `.` or
`;`; the group is that prefix. -/
def journalScan : List Char → Option (List Char)
  | c :: t :: rest =>
      if journalClassChar c then
        if t = '.' ∨ t = ';' then some [c]
        else (journalScan (t :: rest)).map (c :: ·)
      else none
  | _ => none

/-- `extract_journal`: the stripped regex group, or `None` without a match. -/
def extract_journal (citation : String) : Option String :=
  (journalScan citation.toList).map (fun cs => pyStrip cs.asString)

def natOfDigits (cs : List Char) : Nat :=
  cs.foldl (fun n c => n * 10 + (c.toNat - '0'.toNat)) 0

/- `citation.split('. ', 1)`: the text after the first occurrence of
`". "`; `None` when there is no occurrence (the split yields one part
and `extract_date_from_citation` returns `None`). -/
def afterFirstDotSpace : List Char → Option (List Char)
  | '.' :: ' ' :: rest => some rest
  | _ :: rest => afterFirstDotSpace rest
  | [] => none

/-- `\b\d{4}\b` at the start of `cs` (`prevIsWord`: whether the
preceding character is a word character; at string start it is not). -/
def yearHere (prevIsWord : Bool) (cs : List Char) : Option (Nat × List Char) :=
  if prevIsWord then none
  else
    let ds := cs.takeWhile isDigitChar
    if ds.length = 4 then
      match cs.drop 4 with
      | [] => some (natOfDigits ds, [])
      | c :: rest => if wordChar c then none else some (natOfDigits ds, c :: rest)
    else none

/- `re.search` of the year part: try each position left to right, first
success wins (the optional month/day groups never fail a match). -/
def searchYear (prevIsWord : Bool) : List Char → Option (Nat × List Char)
  | [] => none
  | c :: rest =>
      match yearHere prevIsWord (c :: rest) with
      | some r => some r
      | none => searchYear (wordChar c) rest

/-- The optional groups `(?:\s+([A-Za-z]{3,6}))?(?:\s+(\d{1,2}))?` right
after the year: a greedy month word of three to six letters (six of a
longer run, in which case the following day group cannot match), then a
greedy one-or-two-digit day. -/
def matchMonthDay (rest : List Char) : Option String × Option Nat :=
  let ws1 := rest.takeWhile pyWhitespace
  let afterWs1 := rest.drop ws1.length
  let month? : Option (String × List Char) :=
    if ws1 ≠ [] then
      let letters := afterWs1.takeWhile isAlphaChar
      if letters.length ≥ 3 then
        some ((letters.take 6).asString, afterWs1.drop (min 6 letters.length))
      else none
    else none
  let dayFrom : List Char → Option Nat := fun cs =>
    let ws := cs.takeWhile pyWhitespace
    let afterWs := cs.drop ws.length
    if ws ≠ [] then
      let digits := afterWs.takeWhile isDigitChar
      if digits ≠ [] then some (natOfDigits (digits.take 2)) else none
    else none
  match month? with
  | some (m, afterMonth) => (some m, dayFrom afterMonth)
  | none => (none, dayFrom rest)

def monthsAbbrev : List (String × Nat) :=
  [("Jan", 1), ("Feb", 2), ("Mar", 3), ("Apr", 4), ("May", 5), ("Jun", 6),
   ("Jul", 7), ("Aug", 8), ("Sep", 9), ("Oct", 10), ("Nov", 11), ("Dec", 12)]

/-- Python `str.capitalize()`. -/
def pyCapitalize (s : String) : String :=
  match s.toList with
  | [] => ""
  | c :: cs => (c.toUpper :: cs.map Char.toLower).asString

/-- `parse_month_str`: dictionary lookup after `capitalize()`; the
`KeyError` raised on an unknown word is modelled as `none`. -/
def parse_month_str (s : String) : Option Nat :=
  monthsAbbrev.lookup (pyCapitalize s)

def seasonsMap : List (String × Nat) :=
  [("Spring", 3), ("Summer", 6), ("Autumn", 9), ("Fall", 9), ("Winter", 12)]

/-- `parse_season_to_month` (`.get(..., 1)` default). -/
def parse_season_to_month (s : String) : Nat :=
  (seasonsMap.lookup (pyCapitalize s)).getD 1

def pad2 (n : Nat) : String := if n < 10 then "0" ++ toString n else toString n

def pad4 (n : Nat) : String :=
  if n < 10 then "000" ++ toString n
  else if n < 100 then "00" ++ toString n
  else if n < 1000 then "0" ++ toString n
  else toString n

/-- `extract_date_from_citation(citation)` with the default month and
day of `1`: split off the title, search for year/month-or-season/day,
and format `"YYYY MM DD"`.  A `KeyError` escaping `parse_month_str`
(unknown month word) is modelled as `none` — in the source it
propagates to the callers' `except`, which is indistinguishable from a
`None` return at every call site. -/
def extract_date_from_citation (citation : String) : Option String :=
  match afterFirstDotSpace citation.toList with
  | none => none
  | some afterTitle =>
      match searchYear false afterTitle with
      | none => none
      | some (year, rest) =>
          let (monthStr?, day?) := matchMonthDay rest
          let month? : Option Nat :=
            match monthStr? with
            | some m =>
                if ["Spring", "Summer", "Autumn", "Fall", "Winter"].contains m then
                  some (parse_season_to_month m)
                else parse_month_str m
            | none => some 1
          match month? with
          | none => none
          | some month =>
              some (pad4 year ++ " " ++ pad2 month ++ " " ++ pad2 (day?.getD 1))

def isLeapYear (y : Nat) : Bool :=
  y % 4 = 0 && (y % 100 ≠ 0 || y % 400 = 0)

def daysInMonth (y m : Nat) : Nat :=
  if m = 2 then (if isLeapYear y then 29 else 28)
  else if m = 4 ∨ m = 6 ∨ m = 9 ∨ m = 11 then 30
  else 31

def daysBeforeYear (y : Nat) : Nat :=
  365 * (y - 1) + (y - 1) / 4 + (y - 1) / 400 - (y - 1) / 100

def daysBeforeMonth (y m : Nat) : Nat :=
  ([0, 31, 59, 90, 120, 151, 181, 212, 243, 273, 304, 334].getD (m - 1) 0) +
    (if 2 < m ∧ isLeapYear y then 1 else 0)

/-- `date.toordinal()`: day count with 0001-01-01 as day one. -/
def toOrdinal (y m d : Nat) : Nat :=
  daysBeforeYear y + daysBeforeMonth y m + d

/-- Seconds since the Unix epoch (ordinal of 1970-01-01 is 719163) of a
date at midnight.  `datetime.timestamp()` uses the host timezone; the
model takes it to be UTC — no claim depends on the fixed offset. -/
def epochSeconds (y m d : Nat) : Int :=
  ((toOrdinal y m d : Int) - 719163) * 86400

/-- `datetime.strptime(s, '%Y %m %d')`: exactly four year digits,
whitespace, a one-or-two-digit month in 1..12, whitespace, a
one-or-two-digit day in 1..31, nothing else; `none` is the
`ValueError`. -/
def parseYMD (s : String) : Option (Nat × Nat × Nat) :=
  let cs := s.toList
  let y4 := cs.takeWhile isDigitChar
  let r1 := cs.drop y4.length
  let w1 := r1.takeWhile pyWhitespace
  let r2 := r1.drop w1.length
  let mds := r2.takeWhile isDigitChar
  let r3 := r2.drop mds.length
  let w2 := r3.takeWhile pyWhitespace
  let r4 := r3.drop w2.length
  let dds := r4.takeWhile isDigitChar
  let r5 := r4.drop dds.length
  if y4.length = 4 ∧ w1 ≠ [] ∧ (mds.length = 1 ∨ mds.length = 2) ∧ w2 ≠ [] ∧
      (dds.length = 1 ∨ dds.length = 2) ∧ r5 = [] then
    let m := natOfDigits mds
    let d := natOfDigits dds
    if 1 ≤ m ∧ m ≤ 12 ∧ 1 ≤ d ∧ d ≤ 31 then some (natOfDigits y4, m, d) else none
  else none

/-- `ensure_unix`: `None` stays `None`; a string parsing as a valid date
becomes the stringified Unix time; on `ValueError` (bad format, or a day
that does not exist in the month, or year zero) the input string is
returned unchanged. -/
def ensure_unix : Option String → Option String
  | none => none
  | some dateString =>
      match parseYMD dateString with
      | some (y, m, d) =>
          if 1 ≤ y ∧ d ≤ daysInMonth y m then
            some (toString (epochSeconds y m d))
          else some dateString
      | none => some dateString

/-! ## Record assembly (`extract_info_from_filelist_row`,
`extract_metadata_from_nxml` output, `build_nxml_metadata`,
`default_article_dict`) -/

/-- `extract_info_from_filelist_row(row)` for a row produced by
`path_generator` (all six fields present, so the `if not row` branch and
the guarding `try/except`s cannot fire; empty strings are mapped to
`None`). -/
def extract_info_from_filelist_row (row : Row) : List (String × Value) :=
  let journal := extract_journal row.Citation
  let date := extract_date_from_citation row.Citation
  let date_unix := ensure_unix date
  [("accession_id", if row.Accession_ID = "" then Value.null else Value.vstr row.Accession_ID),
   ("citation", if row.Citation = "" then Value.null else Value.vstr row.Citation),
   ("license", if row.License = "" then Value.null else Value.vstr row.License),
   ("date", optValue date_unix),
   ("journal", optValue journal),
   ("pmid", if row.PMID = "" then Value.null else Value.vstr row.PMID)]

/-- The `except` fallback of the `file list` block of
`build_nxml_metadata` (lines 270-280). -/
def filelistFallback (pmcid : String) : List (String × Value) :=
  [("accession_id", Value.vstr pmcid), ("citation", Value.null),
   ("license", Value.null), ("date", Value.null), ("journal", Value.null),
   ("pmid", Value.null)]

/-- The values `extract_metadata_from_nxml` feeds into its output dict
(title after `ensure_title`, keyword, pmid, article categories); the
searches read files, so they enter the model as data. -/
structure NxmlMeta where
  title : Value
  keyword : Value
  pmid : Value
  article_categories : Value

/-- Output dict of `extract_metadata_from_nxml` (lines 446-455):
`abstract` and `mesh` are hard-coded `None` — "later fill None in with
entrez api". -/
def extract_metadata_output (m : NxmlMeta) : List (String × Value) :=
  [("title", m.title), ("keyword", m.keyword), ("pmid", m.pmid),
   ("article_categories", m.article_categories),
   ("abstract", Value.null), ("mesh", Value.null)]

/-- The `except` fallback for `extract_metadata_from_nxml`
(lines 337-347). -/
def nxmlMetadataFallback : List (String × Value) :=
  [("title", Value.null), ("keyword", Value.null), ("pmid", Value.null),
   ("article_categories", Value.null), ("abstract", Value.null),
   ("mesh", Value.null)]

/-- One figure's inputs to the `figure_set` block (lines 286-316): the
image id, the path from the media directory listing, the caption as
returned by `extract_caption_from_nxml` (`none` when that call raised),
and the image hash (`none` when hashing raised). -/
structure FigInput where
  id : String
  imagePath : Option String
  caption : Option String
  hash : Option String

/-- `x if x else None` on an optional string. -/
def truthyStr : Option String → Value
  | none => Value.null
  | some s => if s = "" then Value.null else Value.vstr s

/-- The per-image dict of the `figure_set` block (lines 307-314). -/
def build_image_dict (fig : FigInput) : List (String × Value) :=
  [("image_id", if fig.id = "" then Value.null else Value.vstr fig.id),
   ("image_file_name",
      match fig.imagePath with
      | some p => if p = "" then Value.null else Value.vstr (basename p)
      | none => Value.null),
   ("image_path", truthyStr fig.imagePath),
   ("caption", truthyStr fig.caption),
   ("hash", optValue fig.hash)]

/-- The outcome of every guarded sub-extraction of
`build_nxml_metadata` for one work item; a `none` component records that
the corresponding `try` raised. -/
structure ExtractOutcome where
  filelistOk : Bool
  pmcid : String
  row : Row
  meta : Option NxmlMeta
  figureSet : Option (List FigInput)
  contextRes : Option (List (String × List String))
  nxmlText : Option String

/-- The `filelist_dict` local of `build_nxml_metadata` (lines 270-280). -/
def articleFilelistDict (env : ExtractOutcome) : List (String × Value) :=
  if env.filelistOk then extract_info_from_filelist_row env.row
  else filelistFallback env.pmcid

/-- The `figure_set` value (lines 286-319): `None` when the block
raised, otherwise the list of per-image dicts. -/
def articleFigureSet (env : ExtractOutcome) : Value :=
  match env.figureSet with
  | none => Value.null
  | some figs => Value.vlist (figs.map (fun f => Value.vdict (build_image_dict f)))

/-- The `nxml_metadata` local after the conditional
`nxml_metadata.pop('pmid', None)` (lines 334-351): when the filelist
dict carries a non-`None` pmid, the nxml dict's own `pmid` key is
dropped. -/
def articleNxmlDict (env : ExtractOutcome) : List (String × Value) :=
  let base :=
    match env.meta with
    | some m => extract_metadata_output m
    | none => nxmlMetadataFallback
  match dictGet (articleFilelistDict env) "pmid" with
  | some Value.null => base
  | none => base
  | some _ => dictPop base "pmid"

/-- The `context_dict` value (lines 353-357). -/
def articleContext (env : ExtractOutcome) : Value :=
  match env.contextRes with
  | none => Value.null
  | some ctx => Value.vdict (ctx.map (fun p => (p.1, Value.vlist (p.2.map Value.vstr))))

/-- `build_nxml_metadata` (lines 241-380): assemble the filelist dict,
the nxml metadata dict (dropping its `pmid` when the filelist already
carries one), the figure set, the context and the raw text into one
article dict (lines 359-380). -/
def build_nxml_metadata (env : ExtractOutcome) : List (String × Value) :=
  let article := dictUpdate [] (articleFilelistDict env)
  let article := dictUpdate article (articleNxmlDict env)
  let article := dictSet article "figure_set" (articleFigureSet env)
  let article := dictSet article "context" (articleContext env)
  dictSet article "nxml" (optValue env.nxmlText)

/-- `default_article_dict()` (lines 1045-1069). -/
def default_article_dict : List (String × Value) :=
  [("accession_id", Value.null), ("citation", Value.null), ("license", Value.null),
   ("date", Value.null), ("journal", Value.null), ("title", Value.null),
   ("abstract", Value.null), ("keyword", Value.null), ("pmid", Value.null),
   ("article_categories", Value.null), ("mesh", Value.null),
   ("figure_set", Value.null), ("context", Value.null), ("nxml", Value.null)]

/-- The `try/except` around `build_nxml_metadata` in the main loop
(lines 65-78): `none` means the call raised and the default/null record
is substituted. -/
def emitArticle : Option ExtractOutcome → List (String × Value)
  | none => default_article_dict
  | some env => build_nxml_metadata env

/-! ## The per-item controller loop (`build_json`, lines 57-122) -/

structure BuildState where
  errorLog : List (Row × String)
  completeLog : List (String × Nat)
  writer : WriterState (List (String × Value))

/-- One iteration of the main loop with logging enabled: on an
exception (`Except.error` carrying the traceback text) the manifest row
plus traceback is appended to the error log and the default/null record
substituted; the article is written through the shard writer; the
`Accession_ID` and the shard path now held by `json_file_path` are
appended to the completed log. -/
def processItem (batchSize : Nat) (st : BuildState)
    (item : Row × Except String ExtractOutcome) : BuildState :=
  let (row, outcome) := item
  let (article, errorLog) :=
    match outcome with
    | .error tb => (default_article_dict, st.errorLog ++ [(row, tb)])
    | .ok env => (build_nxml_metadata env, st.errorLog)
  let w := appendRecord batchSize st.writer article
  { errorLog := errorLog
    completeLog := st.completeLog ++ [(row.Accession_ID, w.currentIdx)]
    writer := w }

/-- The whole batch loop over its work items. -/
def processAll (batchSize : Nat) (st : BuildState)
    (items : List (Row × Except String ExtractOutcome)) : BuildState :=
  items.foldl (processItem batchSize) st

/-! ## Association-list lemmas -/

section AssocLemmas

variable {κ ν : Type} [DecidableEq κ] [BEq κ] [LawfulBEq κ]

theorem lookup_assocSet_self (l : List (κ × ν)) (k : κ) (v : ν) :
    (assocSet l k v).lookup k = some v := by
  induction l with
  | nil => simp [assocSet, List.lookup]
  | cons p rest ih =>
      obtain ⟨k', v'⟩ := p
      by_cases h : k' = k
      · simp [assocSet, h, List.lookup]
      · have hb : (k == k') = false := beq_eq_false_iff_ne.mpr (fun e => h e.symm)
        simp [assocSet, if_neg h, List.lookup, hb, ih]

theorem lookup_assocSet_ne (l : List (κ × ν)) (k k' : κ) (v : ν) (h : k' ≠ k) :
    (assocSet l k v).lookup k' = l.lookup k' := by
  have hb : (k' == k) = false := beq_eq_false_iff_ne.mpr h
  induction l with
  | nil => simp [assocSet, List.lookup, hb]
  | cons p rest ih =>
      obtain ⟨k₀, v₀⟩ := p
      by_cases h0 : k₀ = k
      · subst h0
        simp [assocSet, List.lookup, hb]
      · by_cases h1 : k' = k₀
        · subst h1
          simp [assocSet, if_neg h0, List.lookup]
        · have hb1 : (k' == k₀) = false := beq_eq_false_iff_ne.mpr h1
          simp [assocSet, if_neg h0, List.lookup, hb1, ih]

theorem mem_assocSet {l : List (κ × ν)} {k : κ} {v : ν} {p : κ × ν}
    (hp : p ∈ assocSet l k v) : p = (k, v) ∨ p ∈ l := by
  induction l with
  | nil => simpa [assocSet] using hp
  | cons q rest ih =>
      obtain ⟨q1, q2⟩ := q
      by_cases h : q1 = k
      · simp only [assocSet, if_pos h, List.mem_cons] at hp
        rcases hp with h1 | h1
        · exact Or.inl h1
        · exact Or.inr (List.mem_cons_of_mem _ h1)
      · simp only [assocSet, if_neg h, List.mem_cons] at hp
        rcases hp with h1 | h1
        · exact Or.inr (by simp [h1])
        · rcases ih h1 with h2 | h2
          · exact Or.inl h2
          · exact Or.inr (List.mem_cons_of_mem _ h2)

theorem keys_assocSet_mono {l : List (κ × ν)} {k' : κ} (k : κ) (v : ν)
    (h : k' ∈ l.map Prod.fst) : k' ∈ (assocSet l k v).map Prod.fst := by
  induction l with
  | nil => simp at h
  | cons q rest ih =>
      obtain ⟨q1, q2⟩ := q
      simp only [List.map_cons, List.mem_cons] at h
      by_cases h0 : q1 = k
      · subst h0
        rcases h with h | h
        · simp [assocSet, h]
        · exact (by simp [assocSet, List.mem_cons]; exact Or.inr (by simpa using h))
      · rcases h with h | h
        · simp [assocSet, if_neg h0, h]
        · simp only [assocSet, if_neg h0, List.map_cons, List.mem_cons]
          exact Or.inr (ih h)

theorem self_mem_keys_assocSet (l : List (κ × ν)) (k : κ) (v : ν) :
    k ∈ (assocSet l k v).map Prod.fst := by
  induction l with
  | nil => simp [assocSet]
  | cons q rest ih =>
      obtain ⟨q1, q2⟩ := q
      by_cases h0 : q1 = k
      · simp [assocSet, h0]
      · simp only [assocSet, if_neg h0, List.map_cons, List.mem_cons]
        exact Or.inr ih

theorem assocSet_of_lookup_none {l : List (κ × ν)} {k : κ} (v : ν)
    (h : l.lookup k = none) : assocSet l k v = l ++ [(k, v)] := by
  induction l with
  | nil => simp [assocSet]
  | cons q rest ih =>
      obtain ⟨k₀, v₀⟩ := q
      by_cases h0 : k₀ = k
      · subst h0
        simp [List.lookup] at h
      · have hb : (k == k₀) = false := beq_eq_false_iff_ne.mpr (fun e => h0 e.symm)
        simp only [List.lookup, hb, cond_false] at h
        simp [assocSet, if_neg h0, ih h]

theorem mem_of_lookup_eq_some {l : List (κ × ν)} {k : κ} {v : ν}
    (h : l.lookup k = some v) : (k, v) ∈ l := by
  induction l with
  | nil => simp [List.lookup] at h
  | cons q rest ih =>
      obtain ⟨k₀, v₀⟩ := q
      by_cases h0 : k₀ = k
      · subst h0
        simp [List.lookup] at h
        simp [h]
      · have hb : (k == k₀) = false := beq_eq_false_iff_ne.mpr (fun e => h0 e.symm)
        simp only [List.lookup, hb, cond_false] at h
        exact List.mem_cons_of_mem _ (ih h)

end AssocLemmas

/-! ## Writer lemmas -/

section WriterLemmas

variable {α : Type}

theorem foldl_max_le_init (files : List (Nat × List α)) (init : Nat) :
    init ≤ files.foldl (fun m p => max m (p.1 + 1)) init := by
  induction files generalizing init with
  | nil => exact Nat.le_refl _
  | cons q rest ih =>
      exact Nat.le_trans (Nat.le_max_left init (q.1 + 1)) (ih _)

theorem mem_lt_getNextIndex {files : List (Nat × List α)} {p : Nat × List α}
    (hp : p ∈ files) : p.1 < getNextIndex files := by
  unfold getNextIndex
  induction files generalizing p with
  | nil => simp at hp
  | cons q rest ih =>
      rcases List.mem_cons.mp hp with h | h
      · subst h
        calc p.1 < p.1 + 1 := Nat.lt_succ_self _
          _ ≤ max 0 (p.1 + 1) := Nat.le_max_right _ _
          _ ≤ _ := foldl_max_le_init rest _
      · have := ih h
        simp only [List.foldl_cons]
        have hmono : ∀ (l : List (Nat × List α)) (a b : Nat), a ≤ b →
            l.foldl (fun m p => max m (p.1 + 1)) a ≤ l.foldl (fun m p => max m (p.1 + 1)) b := by
          intro l
          induction l with
          | nil => intro a b hab; exact hab
          | cons x xs ihx =>
              intro a b hab
              exact ihx _ _ (max_le_max hab (Nat.le_refl _))
        exact Nat.lt_of_lt_of_le this (hmono rest 0 (max 0 _) (Nat.le_max_left _ _))

theorem lookup_getNextIndex_none (files : List (Nat × List α)) :
    files.lookup (getNextIndex files) = none := by
  cases h : files.lookup (getNextIndex files) with
  | none => rfl
  | some l =>
      have := mem_lt_getNextIndex (mem_of_lookup_eq_some h)
      exact absurd this (Nat.lt_irrefl _)

theorem sum_setFile (files : List (Nat × List α)) (k : Nat) (v : List α) :
    ((setFile files k v).map (fun p => p.2.length)).sum +
      ((files.lookup k).getD []).length =
    (files.map (fun p => p.2.length)).sum + v.length := by
  induction files with
  | nil => simp [setFile, assocSet, List.lookup]
  | cons q rest ih =>
      obtain ⟨k₀, v₀⟩ := q
      by_cases h0 : k₀ = k
      · subst h0
        simp [setFile, assocSet, List.lookup]
        omega
      · have hb : (k == k₀) = false := beq_eq_false_iff_ne.mpr (fun e => h0 e.symm)
        simp only [setFile, assocSet, if_neg h0, List.map_cons, List.sum_cons,
          List.lookup, hb, cond_false]
        have := ih
        simp only [setFile] at this
        omega

/-- One `append` adds exactly one record to the directory. -/
theorem totalRecords_appendRecord (batchSize : Nat) (st : WriterState α) (r : α) :
    totalRecords (appendRecord batchSize st r) = totalRecords st + 1 := by
  unfold appendRecord totalRecords
  set cur := (st.files.lookup st.currentIdx).getD [] with hcur
  by_cases hc : (cur.length : Int) = (batchSize : Int) - 1
  · simp only [if_pos hc]
    have hfresh : st.files.lookup (getNextIndex st.files) = none :=
      lookup_getNextIndex_none st.files
    have h1 := sum_setFile st.files (getNextIndex st.files) []
    rw [hfresh] at h1
    simp only [Option.getD_none, List.length_nil, List.length_append] at h1
    have h2 := sum_setFile (setFile st.files (getNextIndex st.files) [])
      st.currentIdx (cur ++ [r])
    have hl : ((setFile st.files (getNextIndex st.files) []).lookup st.currentIdx).getD []
        = cur := by
      by_cases he : st.currentIdx = getNextIndex st.files
      · rw [he, lookup_assocSet_self]
        rw [he, hfresh] at hcur
        simp [hcur]
      · rw [lookup_assocSet_ne _ _ _ _ he]
    rw [hl] at h2
    simp only [List.length_append, List.length_cons, List.length_nil] at h2 ⊢
    omega
  · simp only [if_neg hc]
    have h2 := sum_setFile st.files st.currentIdx (cur ++ [r])
    rw [← hcur] at h2
    simp only [List.length_append, List.length_cons, List.length_nil] at h2 ⊢
    omega

/-- One `append` never shrinks or overwrites an existing shard: its old
contents remain a prefix of its new contents. -/
theorem appendRecord_preserves_prefix (batchSize : Nat) (st : WriterState α) (r : α)
    (i : Nat) (l : List α) (hl : st.files.lookup i = some l) :
    ∃ l', (appendRecord batchSize st r).files.lookup i = some l' ∧ l <+: l' := by
  unfold appendRecord
  set cur := (st.files.lookup st.currentIdx).getD [] with hcur
  have hifresh : i ≠ getNextIndex st.files := by
    intro he
    rw [he, lookup_getNextIndex_none] at hl
    exact Option.noConfusion hl
  by_cases hc : (cur.length : Int) = (batchSize : Int) - 1
  · simp only [if_pos hc]
    by_cases hi : i = st.currentIdx
    · subst hi
      refine ⟨cur ++ [r], ?_, ?_⟩
      · simp only [setFile]
        rw [lookup_assocSet_self]
      · rw [hl] at hcur
        simp only [Option.getD_some] at hcur
        rw [hcur]
        exact List.prefix_append l [r]
    · refine ⟨l, ?_, List.prefix_refl l⟩
      simp only [setFile]
      rw [lookup_assocSet_ne _ _ _ _ (fun e => hi e),
        lookup_assocSet_ne _ _ _ _ hifresh, hl]
  · simp only [if_neg hc]
    by_cases hi : i = st.currentIdx
    · subst hi
      refine ⟨cur ++ [r], ?_, ?_⟩
      · simp only [setFile]
        rw [lookup_assocSet_self]
      · rw [hl] at hcur
        simp only [Option.getD_some] at hcur
        rw [hcur]
        exact List.prefix_append l [r]
    · refine ⟨l, ?_, List.prefix_refl l⟩
      simp only [setFile]
      rw [lookup_assocSet_ne _ _ _ _ (fun e => hi e), hl]

/-- The within-run invariant of the writer: every shard holds at most
`batchSize` records, the current shard exists, and the current shard
still has room for one more record. -/
def capInv (batchSize : Nat) (st : WriterState α) : Prop :=
  (∀ p ∈ st.files, p.2.length ≤ batchSize) ∧
  (st.files.lookup st.currentIdx).isSome ∧
  ((st.files.lookup st.currentIdx).getD []).length + 1 ≤ batchSize

theorem capInv_init (batchSize : Nat) (h : 1 ≤ batchSize) :
    capInv batchSize (initWriter ([] : List (Nat × List α))) := by
  refine ⟨?_, ?_, ?_⟩ <;>
    simp [initWriter, setFile, assocSet, List.lookup, capInv, h]

theorem capInv_step (batchSize : Nat) (st : WriterState α) (r : α)
    (h : 1 ≤ batchSize) (hinv : capInv batchSize st) :
    capInv batchSize (appendRecord batchSize st r) := by
  obtain ⟨hall, hsome, hroom⟩ := hinv
  unfold appendRecord
  set cur := (st.files.lookup st.currentIdx).getD [] with hcur
  by_cases hc : (cur.length : Int) = (batchSize : Int) - 1
  · have hlen : cur.length + 1 = batchSize := by omega
    simp only [if_pos hc]
    obtain ⟨l0, hl0⟩ := Option.isSome_iff_exists.mp hsome
    have hmem : (st.currentIdx, l0) ∈ st.files := mem_of_lookup_eq_some hl0
    have hlt : st.currentIdx < getNextIndex st.files := mem_lt_getNextIndex hmem
    have hne : getNextIndex st.files ≠ st.currentIdx := fun e => by omega
    refine ⟨?_, ?_, ?_⟩
    · intro p hp
      rcases mem_assocSet hp with h1 | h1
      · subst h1
        simpa using Nat.le_of_eq hlen
      · rcases mem_assocSet h1 with h2 | h2
        · subst h2; simpa using h
        · exact hall p h2
    · simp only [setFile]
      rw [lookup_assocSet_ne _ _ _ _ hne, lookup_assocSet_self]
      rfl
    · simp only [setFile]
      rw [lookup_assocSet_ne _ _ _ _ hne, lookup_assocSet_self]
      simpa using h
  · have hlen : cur.length + 1 ≠ batchSize := by omega
    simp only [if_neg hc]
    refine ⟨?_, ?_, ?_⟩
    · intro p hp
      rcases mem_assocSet hp with h1 | h1
      · subst h1
        simp only [List.length_append, List.length_cons, List.length_nil]
        omega
      · exact hall p h1
    · simp only [setFile]
      rw [lookup_assocSet_self]
      rfl
    · simp only [setFile]
      rw [lookup_assocSet_self]
      simp only [Option.getD_some, List.length_append, List.length_cons, List.length_nil]
      omega

theorem capInv_run (batchSize : Nat) (records : List α) (st : WriterState α)
    (h : 1 ≤ batchSize) (hinv : capInv batchSize st) :
    capInv batchSize (runWriter batchSize st records) := by
  induction records generalizing st with
  | nil => exact hinv
  | cons r rest ih => exact ih _ (capInv_step batchSize st r h hinv)

end WriterLemmas

/-! ## Claim theorems: shard writer (C2, C6) -/

/-- C2 — counterexample.  With batch size 2, appending two records to a
fresh writer triggers a rotation at the second record, yet that second
record lands in the *old* shard `0` (which ends with both records) while
the freshly created shard `1` stays empty — contradicting "that next
record is written into the fresh shard rather than the old one" (and
the rotation fired when the in-memory count was only 1, not the batch
size).  Moreover in the one situation where the in-memory count *does*
equal the batch size before the next record (shard 0 already holding
two records), no new shard is opened at all and the record is appended
to the old shard. -/
theorem rotation_record_goes_to_old_shard :
    ((runWriter 2 (initWriter ([] : List (Nat × List Nat))) [10, 20]).files.lookup 0
        = some [10, 20] ∧
     (runWriter 2 (initWriter ([] : List (Nat × List Nat))) [10, 20]).files.lookup 1
        = some [] ∧
     ¬ (runWriter 2 (initWriter ([] : List (Nat × List Nat))) [10, 20]).files.lookup 1
        = some [20]) ∧
    ((appendRecord 2 (⟨[(0, [1, 2])], 0⟩ : WriterState Nat) 3).files.lookup 0
        = some [1, 2, 3] ∧
     (appendRecord 2 (⟨[(0, [1, 2])], 0⟩ : WriterState Nat) 3).files.lookup 1
        = none ∧
     (appendRecord 2 (⟨[(0, [1, 2])], 0⟩ : WriterState Nat) 3).currentIdx = 0) := by
  refine ⟨⟨rfl, rfl, ?_⟩, rfl, rfl, rfl⟩
  decide

/-- C2 — amended.  When the current shard's in-memory count reaches
`batch_size - 1` before the next record is added, the writer first
creates a new empty shard whose index is one plus the maximum existing
index for this manifest name (0 when none exist), repoints
`json_file_path` at it, but writes that next record into the *old*
shard through the still-open handle, bringing the old shard to exactly
`batch_size` records; only subsequent records go into the fresh
shard. -/
theorem shard_rotation_spec {α : Type} (batchSize : Nat) (st : WriterState α)
    (r r' : α) (cur : List α)
    (hcur : st.files.lookup st.currentIdx = some cur)
    (hlen : (cur.length : Int) = (batchSize : Int) - 1) :
    (appendRecord batchSize st r).currentIdx = getNextIndex st.files ∧
    (appendRecord batchSize st r).files.lookup (getNextIndex st.files) = some [] ∧
    (appendRecord batchSize st r).files.lookup st.currentIdx = some (cur ++ [r]) ∧
    (batchSize ≠ 1 →
      (appendRecord batchSize (appendRecord batchSize st r) r').files.lookup
        (getNextIndex st.files) = some [r']) := by
  have hne : getNextIndex st.files ≠ st.currentIdx := by
    have := mem_lt_getNextIndex (mem_of_lookup_eq_some hcur)
    omega
  have hst : appendRecord batchSize st r =
      ⟨setFile (setFile st.files (getNextIndex st.files) []) st.currentIdx (cur ++ [r]),
       getNextIndex st.files⟩ := by
    unfold appendRecord
    rw [hcur]
    simp only [Option.getD_some, if_pos hlen]
  have hfresh : (appendRecord batchSize st r).files.lookup (getNextIndex st.files)
      = some [] := by
    rw [hst]
    show (assocSet (assocSet st.files (getNextIndex st.files) []) st.currentIdx
      (cur ++ [r])).lookup (getNextIndex st.files) = some []
    rw [lookup_assocSet_ne _ _ _ _ hne, lookup_assocSet_self]
  refine ⟨by rw [hst], hfresh, ?_, ?_⟩
  · rw [hst]
    exact lookup_assocSet_self _ _ _
  · intro h1
    have hidx : (appendRecord batchSize st r).currentIdx = getNextIndex st.files := by
      rw [hst]
    conv_lhs =>
      rw [appendRecord, hidx, hfresh]
    have hcond : ¬ ((([] : List α).length : Int) = (batchSize : Int) - 1) := by
      simp only [List.length_nil, Nat.cast_zero]
      omega
    simp only [Option.getD_some, if_neg hcond, List.nil_append]
    exact lookup_assocSet_self _ _ _

/-- C2 — witness for the amended rotation theorem at a concrete state:
batch size 2, shard 0 holding one record. -/
theorem shard_rotation_spec_witness :
    (appendRecord 2 (⟨[(0, [5])], 0⟩ : WriterState Nat) 6).currentIdx
        = getNextIndex [(0, [5])] ∧
    (appendRecord 2 (⟨[(0, [5])], 0⟩ : WriterState Nat) 6).files.lookup
        (getNextIndex [(0, [5])]) = some [] ∧
    (appendRecord 2 (⟨[(0, [5])], 0⟩ : WriterState Nat) 6).files.lookup 0
        = some ([5] ++ [6]) ∧
    (2 ≠ 1 →
      (appendRecord 2 (appendRecord 2 (⟨[(0, [5])], 0⟩ : WriterState Nat) 6) 7).files.lookup
        (getNextIndex [(0, [5])]) = some [7]) :=
  shard_rotation_spec 2 ⟨[(0, [5])], 0⟩ 6 7 [5] rfl (by decide)

/-- C6 — counterexample.  A writer reopened over a directory whose
shard 0 is already full (batch size 2, records `[1, 2]`) appends the
next record to that full shard: it ends with 3 > 2 records, so a full
shard is not immutable across a reopen and the cap does not survive a
simulated restart. -/
theorem reopened_writer_appends_to_full_shard :
    (runWriter 2 (initWriter [(0, [1, 2])] : WriterState Nat) [3]).files.lookup 0
        = some [1, 2, 3] ∧
    ¬ (∀ p ∈ (runWriter 2 (initWriter [(0, [1, 2])] : WriterState Nat) [3]).files,
        p.2.length ≤ 2) := by
  refine ⟨rfl, ?_⟩
  decide

/-- C6 — amended.  Within a single run started on an empty directory
every shard file holds at most `batch_size` records; and an append step
never overwrites or shrinks any existing shard — its previous contents
always remain a prefix (in particular a reopened writer never loses a
full shard's records, though it may append to the full shard). -/
theorem shard_cap_within_run_and_no_shrink {α : Type} (batchSize : Nat)
    (h : 1 ≤ batchSize) :
    (∀ records : List α,
        ∀ p ∈ (runWriter batchSize (initWriter []) records).files,
          p.2.length ≤ batchSize) ∧
    (∀ (st : WriterState α) (r : α) (i : Nat) (l : List α),
        st.files.lookup i = some l →
        ∃ l', (appendRecord batchSize st r).files.lookup i = some l' ∧ l <+: l') := by
  constructor
  · intro records p hp
    exact (capInv_run batchSize records _ h (capInv_init batchSize h)).1 p hp
  · intro st r i l hl
    exact appendRecord_preserves_prefix batchSize st r i l hl

/-- C6 — witness: the no-shrink half applied to a reopened writer whose
shard 0 already holds two records. -/
theorem shard_cap_within_run_and_no_shrink_witness :
    ∃ l', (appendRecord 2 (initWriter [(0, [5, 6])] : WriterState Nat) 7).files.lookup 0
        = some l' ∧ [5, 6] <+: l' :=
  (shard_cap_within_run_and_no_shrink (α := Nat) 2 (by decide)).2
    (initWriter [(0, [5, 6])]) 7 0 [5, 6] rfl

/-! ## Claim theorems: batch-level resume (C3) -/

/-- C3 — confirmed.  If the completed log's row count equals the
manifest's, a repeated invocation hands `build_json` no work at all;
and when a completed log exists with a different count, the processed
work set carries exactly the manifest accession ids minus the
completed-log accession ids, a membership criterion independent of row
positions. -/
theorem resume_work_set_spec (manifest : List Row) (completed : List CompletedEntry) :
    (completed.length = manifest.length →
      resumeWorkSet manifest (some completed) = []) ∧
    (completed.length ≠ manifest.length →
      ∀ a, a ∈ (resumeWorkSet manifest (some completed)).map Row.Accession_ID ↔
        (a ∈ manifest.map Row.Accession_ID ∧ a ∉ completed.map Prod.fst)) := by
  constructor
  · intro h
    simp [resumeWorkSet, compare_csv_row_counts, h]
  · intro h a
    have hc : compare_csv_row_counts (1 + manifest.length) (1 + completed.length)
        = false := by
      simp only [compare_csv_row_counts, beq_eq_false_iff_ne, Ne]
      omega
    simp only [resumeWorkSet, hc, Bool.false_eq_true, if_false,
      create_subset_based_on_file_diff, List.mem_map, List.mem_filter]
    constructor
    · rintro ⟨r, ⟨hr, hp⟩, rfl⟩
      refine ⟨⟨r, hr, rfl⟩, ?_⟩
      simp only [decide_not, Bool.not_eq_eq_eq_not, Bool.not_true,
        ← Bool.not_eq_true, List.elem_iff] at hp
      simpa using hp
    · rintro ⟨⟨r, hr, rfl⟩, hnot⟩
      refine ⟨r, ⟨hr, ?_⟩, rfl⟩
      simp only [decide_not, Bool.not_eq_eq_eq_not, Bool.not_true,
        ← Bool.not_eq_true, List.elem_iff]
      simpa using hnot

/-- C3 — witness: a two-row manifest with one completed row resumes
with exactly the other row's accession id. -/
theorem resume_work_set_spec_witness :
    "PMC2" ∈ (resumeWorkSet
        [⟨"f1", "c1", "PMC1", "d", "l", ""⟩, ⟨"f2", "c2", "PMC2", "d", "l", ""⟩]
        (some [("PMC1", 0)])).map Row.Accession_ID ↔
      ("PMC2" ∈ [(⟨"f1", "c1", "PMC1", "d", "l", ""⟩ : Row),
                 ⟨"f2", "c2", "PMC2", "d", "l", ""⟩].map Row.Accession_ID ∧
       "PMC2" ∉ ([("PMC1", 0)] : List CompletedEntry).map Prod.fst) :=
  (resume_work_set_spec _ _).2 (by decide) "PMC2"

/-! ## Claim theorems: per-item failure handling (C7) -/

theorem processAll_completeLog_length (batchSize : Nat)
    (items : List (Row × Except String ExtractOutcome)) (st : BuildState) :
    (processAll batchSize st items).completeLog.length
      = st.completeLog.length + items.length := by
  induction items generalizing st with
  | nil => simp [processAll]
  | cons it rest ih =>
      show (processAll batchSize (processItem batchSize st it) rest).completeLog.length = _
      rw [ih]
      obtain ⟨row, outcome⟩ := it
      cases outcome <;> simp [processItem] <;> omega

/-- C7 — confirmed.  A work item whose processing raises: its manifest
row plus the exception text goes to the error log, the default/null
record is substituted and still written through the shard writer
(adding exactly one record to the directory), the item is recorded in
the completion log (with the shard path `json_file_path` holds after
the write), and the loop simply continues with the remaining items —
every item of a batch is logged as complete regardless of failures. -/
theorem item_failure_logged_and_batch_continues (batchSize : Nat) (st : BuildState)
    (row : Row) (tb : String) :
    (processItem batchSize st (row, Except.error tb)).errorLog
        = st.errorLog ++ [(row, tb)] ∧
    (processItem batchSize st (row, Except.error tb)).writer
        = appendRecord batchSize st.writer default_article_dict ∧
    (processItem batchSize st (row, Except.error tb)).completeLog
        = st.completeLog ++ [(row.Accession_ID,
            (appendRecord batchSize st.writer default_article_dict).currentIdx)] ∧
    totalRecords (processItem batchSize st (row, Except.error tb)).writer
        = totalRecords st.writer + 1 ∧
    (∀ rest, processAll batchSize st ((row, Except.error tb) :: rest)
        = processAll batchSize (processItem batchSize st (row, Except.error tb)) rest) ∧
    (∀ items, (processAll batchSize st items).completeLog.length
        = st.completeLog.length + items.length) := by
  refine ⟨rfl, rfl, rfl, ?_, fun rest => rfl, fun items =>
    processAll_completeLog_length batchSize items st⟩
  exact totalRecords_appendRecord batchSize st.writer default_article_dict

/-! ## Record-dict lemmas -/

theorem dictGet_dictUpdate_not_mem (d new : List (String × Value)) {k : String}
    (h : k ∉ new.map Prod.fst) : dictGet (dictUpdate d new) k = dictGet d k := by
  induction new generalizing d with
  | nil => rfl
  | cons p rest ih =>
      simp only [List.map_cons, List.mem_cons, not_or] at h
      obtain ⟨h1, h2⟩ := h
      show dictGet (dictUpdate (dictSet d p.1 p.2) rest) k = dictGet d k
      rw [ih _ h2]
      exact lookup_assocSet_ne _ _ _ _ h1

theorem dictGet_dictUpdate_of_lookup (d new : List (String × Value)) (k : String)
    (v : Value) (hv : new.lookup k = some v) (hnd : (new.map Prod.fst).Nodup) :
    dictGet (dictUpdate d new) k = some v := by
  induction new generalizing d with
  | nil => simp [List.lookup] at hv
  | cons p rest ih =>
      obtain ⟨k1, v1⟩ := p
      simp only [List.map_cons, List.nodup_cons] at hnd
      obtain ⟨hk1, hnd'⟩ := hnd
      by_cases h : k = k1
      · subst h
        simp only [List.lookup, beq_self_eq_true, cond_true, Option.some.injEq] at hv
        show dictGet (dictUpdate (dictSet d k v1) rest) k = some v
        rw [dictGet_dictUpdate_not_mem _ _ hk1, hv]
        exact lookup_assocSet_self _ _ _
      · have hb : (k == k1) = false := beq_eq_false_iff_ne.mpr h
        simp only [List.lookup, hb, cond_false] at hv
        exact ih _ hv hnd'

theorem keys_dictUpdate_left (d n : List (String × Value)) {k : String}
    (h : k ∈ d.map Prod.fst) : k ∈ (dictUpdate d n).map Prod.fst := by
  induction n generalizing d with
  | nil => exact h
  | cons p rest ih => exact ih _ (keys_assocSet_mono _ _ h)

theorem keys_dictUpdate_right (d n : List (String × Value)) {k : String}
    (h : k ∈ n.map Prod.fst) : k ∈ (dictUpdate d n).map Prod.fst := by
  induction n generalizing d with
  | nil => simp at h
  | cons p rest ih =>
      obtain ⟨k1, v1⟩ := p
      simp only [List.map_cons, List.mem_cons] at h
      rcases h with h | h
      · subst h
        show k ∈ (dictUpdate (dictSet d k v1) rest).map Prod.fst
        exact keys_dictUpdate_left _ _ (self_mem_keys_assocSet _ _ _)
      · exact ih _ h

/-- The key list of the nxml-metadata part: the six-key dict, or the
five-key dict when the filelist pmid forced the `pop`. -/
theorem articleNxmlDict_cases (env : ExtractOutcome) :
    (articleNxmlDict env).map Prod.fst
        = ["title", "keyword", "pmid", "article_categories", "abstract", "mesh"] ∨
    (articleNxmlDict env).map Prod.fst
        = ["title", "keyword", "article_categories", "abstract", "mesh"] := by
  unfold articleNxmlDict
  rcases hm : env.meta with _ | m <;>
    rcases hp : dictGet (articleFilelistDict env) "pmid" with _ | v <;>
      first
        | exact Or.inl rfl
        | (cases v
           · exact Or.inl rfl
           · exact Or.inr rfl
           · exact Or.inr rfl
           · exact Or.inr rfl)

theorem articleNxmlDict_lookup_abstract (env : ExtractOutcome) :
    (articleNxmlDict env).lookup "abstract" = some Value.null := by
  unfold articleNxmlDict
  rcases hm : env.meta with _ | m <;>
    rcases hp : dictGet (articleFilelistDict env) "pmid" with _ | v <;>
      first | rfl | (cases v <;> rfl)

theorem articleNxmlDict_keys_nodup (env : ExtractOutcome) :
    ((articleNxmlDict env).map Prod.fst).Nodup := by
  rcases articleNxmlDict_cases env with h | h <;> rw [h] <;> decide

/-- The top three `dictSet`s of `build_nxml_metadata` do not touch a
key other than `figure_set`, `context` and `nxml`. -/
theorem dictGet_build_nxml_metadata_top (env : ExtractOutcome) (k : String)
    (h1 : k ≠ "figure_set") (h2 : k ≠ "context") (h3 : k ≠ "nxml") :
    dictGet (build_nxml_metadata env) k
      = dictGet (dictUpdate (dictUpdate [] (articleFilelistDict env))
          (articleNxmlDict env)) k := by
  show (assocSet (assocSet (assocSet (dictUpdate (dictUpdate []
      (articleFilelistDict env)) (articleNxmlDict env)) "figure_set"
      (articleFigureSet env)) "context" (articleContext env)) "nxml"
      (optValue env.nxmlText)).lookup k = _
  rw [lookup_assocSet_ne _ _ _ _ h3, lookup_assocSet_ne _ _ _ _ h2,
    lookup_assocSet_ne _ _ _ _ h1]

/-! ## Claim theorems: record shape (C4, C9, C8, C10) -/

/-- C9 — counterexample.  A concretely assembled record (successful
metadata extraction) carries `abstract = None`, not a string: the
build-stage abstract is null, never the empty string. -/
theorem abstract_is_null_in_emitted_record :
    dictGet (emitArticle (some
      ⟨true, "PMC1", ⟨"f", "Nature. 2020 Jan 15.", "PMC1", "d", "CC BY", ""⟩,
       some ⟨Value.vstr "T", Value.null, Value.null, Value.null⟩,
       some [], some [], some "text"⟩)) "abstract" = some Value.null ∧
    dictGet (emitArticle (some
      ⟨true, "PMC1", ⟨"f", "Nature. 2020 Jan 15.", "PMC1", "d", "CC BY", ""⟩,
       some ⟨Value.vstr "T", Value.null, Value.null, Value.null⟩,
       some [], some [], some "text"⟩)) "abstract" ≠ some (Value.vstr "") := by
  constructor
  · rfl
  · intro h
    have h2 : Value.null = Value.vstr "" := by
      have h1 : dictGet (emitArticle (some
        ⟨true, "PMC1", ⟨"f", "Nature. 2020 Jan 15.", "PMC1", "d", "CC BY", ""⟩,
         some ⟨Value.vstr "T", Value.null, Value.null, Value.null⟩,
         some [], some [], some "text"⟩)) "abstract" = some Value.null := rfl
      rw [h1] at h
      exact Option.some.inj h
    exact Value.noConfusion h2

/-- C9 — amended.  Every emitted article record carries the `abstract`
key, and its value at the build stage is always null (the source
hard-codes `'abstract': None`, leaving the string fill-in to the later
Entrez enrichment pass). -/
theorem abstract_always_null_at_build_stage (o : Option ExtractOutcome) :
    dictGet (emitArticle o) "abstract" = some Value.null := by
  cases o with
  | none => rfl
  | some env =>
      show dictGet (build_nxml_metadata env) "abstract" = some Value.null
      rw [dictGet_build_nxml_metadata_top env "abstract" (by decide) (by decide)
        (by decide)]
      exact dictGet_dictUpdate_of_lookup _ _ _ _
        (articleNxmlDict_lookup_abstract env) (articleNxmlDict_keys_nodup env)

/-- C4 — confirmed.  Every emitted article record — the assembled one
as well as the default/null substitute — contains every key of the
default template. -/
theorem record_keys_complete (o : Option ExtractOutcome) (k : String)
    (hk : k ∈ default_article_dict.map Prod.fst) :
    k ∈ (emitArticle o).map Prod.fst := by
  cases o with
  | none => exact hk
  | some env =>
      have hd : default_article_dict.map Prod.fst
          = ["accession_id", "citation", "license", "date", "journal", "title",
             "abstract", "keyword", "pmid", "article_categories", "mesh",
             "figure_set", "context", "nxml"] := rfl
      rw [hd] at hk
      show k ∈ (build_nxml_metadata env).map Prod.fst
      have hfl : k ∈ ["accession_id", "citation", "license", "date", "journal", "pmid"] →
          k ∈ (articleFilelistDict env).map Prod.fst := by
        intro hmem
        unfold articleFilelistDict
        cases env.filelistOk
        · have he : (filelistFallback env.pmcid).map Prod.fst
              = ["accession_id", "citation", "license", "date", "journal", "pmid"] := rfl
          simpa [he] using hmem
        · have he : (extract_info_from_filelist_row env.row).map Prod.fst
              = ["accession_id", "citation", "license", "date", "journal", "pmid"] := rfl
          simpa [he] using hmem
      have hnx : k ∈ ["title", "keyword", "article_categories", "abstract", "mesh"] →
          k ∈ (articleNxmlDict env).map Prod.fst := by
        intro hmem
        rcases articleNxmlDict_cases env with h | h <;> rw [h]
        · exact (by decide : ∀ x ∈ ["title", "keyword", "article_categories",
            "abstract", "mesh"], x ∈ ["title", "keyword", "pmid",
            "article_categories", "abstract", "mesh"]) k hmem
        · exact hmem
      show k ∈ (assocSet (assocSet (assocSet (dictUpdate (dictUpdate []
          (articleFilelistDict env)) (articleNxmlDict env)) "figure_set"
          (articleFigureSet env)) "context" (articleContext env)) "nxml"
          (optValue env.nxmlText)).map Prod.fst
      simp only [List.mem_cons, List.not_mem_nil, or_false] at hk
      rcases hk with rfl | rfl | rfl | rfl | rfl | rfl | rfl | rfl | rfl | rfl |
        rfl | rfl | rfl | rfl
      · exact keys_assocSet_mono _ _ (keys_assocSet_mono _ _ (keys_assocSet_mono _ _
          (keys_dictUpdate_left _ _ (keys_dictUpdate_right _ _ (hfl (by decide))))))
      · exact keys_assocSet_mono _ _ (keys_assocSet_mono _ _ (keys_assocSet_mono _ _
          (keys_dictUpdate_left _ _ (keys_dictUpdate_right _ _ (hfl (by decide))))))
      · exact keys_assocSet_mono _ _ (keys_assocSet_mono _ _ (keys_assocSet_mono _ _
          (keys_dictUpdate_left _ _ (keys_dictUpdate_right _ _ (hfl (by decide))))))
      · exact keys_assocSet_mono _ _ (keys_assocSet_mono _ _ (keys_assocSet_mono _ _
          (keys_dictUpdate_left _ _ (keys_dictUpdate_right _ _ (hfl (by decide))))))
      · exact keys_assocSet_mono _ _ (keys_assocSet_mono _ _ (keys_assocSet_mono _ _
          (keys_dictUpdate_left _ _ (keys_dictUpdate_right _ _ (hfl (by decide))))))
      · exact keys_assocSet_mono _ _ (keys_assocSet_mono _ _ (keys_assocSet_mono _ _
          (keys_dictUpdate_right _ _ (hnx (by decide)))))
      · exact keys_assocSet_mono _ _ (keys_assocSet_mono _ _ (keys_assocSet_mono _ _
          (keys_dictUpdate_right _ _ (hnx (by decide)))))
      · exact keys_assocSet_mono _ _ (keys_assocSet_mono _ _ (keys_assocSet_mono _ _
          (keys_dictUpdate_right _ _ (hnx (by decide)))))
      · exact keys_assocSet_mono _ _ (keys_assocSet_mono _ _ (keys_assocSet_mono _ _
          (keys_dictUpdate_left _ _ (keys_dictUpdate_right _ _ (hfl (by decide))))))
      · exact keys_assocSet_mono _ _ (keys_assocSet_mono _ _ (keys_assocSet_mono _ _
          (keys_dictUpdate_right _ _ (hnx (by decide)))))
      · exact keys_assocSet_mono _ _ (keys_assocSet_mono _ _ (keys_assocSet_mono _ _
          (keys_dictUpdate_right _ _ (hnx (by decide)))))
      · exact keys_assocSet_mono _ _ (keys_assocSet_mono _ _
          (self_mem_keys_assocSet _ _ _))
      · exact keys_assocSet_mono _ _ (self_mem_keys_assocSet _ _ _)
      · exact self_mem_keys_assocSet _ _ _

/-- C4 — witness: the `mesh` key is present in a concretely assembled
record (and in the default record, by the `none` branch). -/
theorem record_keys_complete_witness :
    "mesh" ∈ (emitArticle (some
      ⟨true, "PMC7", ⟨"f", "Cell. 2019 Sep 4.", "PMC7", "d", "CC0", "123"⟩,
       none, none, none, none⟩)).map Prod.fst :=
  record_keys_complete _ "mesh" (by decide)

/-- C8 — confirmed.  For an item whose manifest row carries a citation,
the `journal` and `date` fields of the assembled record equal the
citation-derived values even when every document-side extraction failed
(metadata fallback, no figure set, no context, no raw text): the
manifest-only degraded record still gets them from the citation
alone. -/
theorem citation_fields_survive_doc_failure (env : ExtractOutcome)
    (hfl : env.filelistOk = true) (_hmeta : env.meta = none)
    (_hfig : env.figureSet = none) (_hctx : env.contextRes = none)
    (_hnx : env.nxmlText = none) (_hcit : env.row.Citation ≠ "") :
    dictGet (build_nxml_metadata env) "journal"
        = some (optValue (extract_journal env.row.Citation)) ∧
    dictGet (build_nxml_metadata env) "date"
        = some (optValue (ensure_unix (extract_date_from_citation env.row.Citation))) := by
  have hfld : articleFilelistDict env = extract_info_from_filelist_row env.row := by
    simp [articleFilelistDict, hfl]
  constructor
  · rw [dictGet_build_nxml_metadata_top env "journal" (by decide) (by decide)
      (by decide)]
    rw [dictGet_dictUpdate_not_mem _ _
      (by rcases articleNxmlDict_cases env with h | h <;> rw [h] <;> decide)]
    rw [hfld]
    exact rfl
  · rw [dictGet_build_nxml_metadata_top env "date" (by decide) (by decide)
      (by decide)]
    rw [dictGet_dictUpdate_not_mem _ _
      (by rcases articleNxmlDict_cases env with h | h <;> rw [h] <;> decide)]
    rw [hfld]
    exact rfl

/-- C8 — witness at a concrete row whose document-side extraction
failed entirely. -/
theorem citation_fields_survive_doc_failure_witness :
    dictGet (build_nxml_metadata
      ⟨true, "PMC42", ⟨"f", "Nature. 2020 Jan 15.", "PMC42", "d", "CC BY", ""⟩,
       none, none, none, none⟩) "journal"
        = some (optValue (extract_journal "Nature. 2020 Jan 15.")) ∧
    dictGet (build_nxml_metadata
      ⟨true, "PMC42", ⟨"f", "Nature. 2020 Jan 15.", "PMC42", "d", "CC BY", ""⟩,
       none, none, none, none⟩) "date"
        = some (optValue (ensure_unix
            (extract_date_from_citation "Nature. 2020 Jan 15."))) :=
  citation_fields_survive_doc_failure
    ⟨true, "PMC42", ⟨"f", "Nature. 2020 Jan 15.", "PMC42", "d", "CC BY", ""⟩,
     none, none, none, none⟩ rfl rfl rfl rfl rfl (by decide)

/-- C10 — confirmed.  In a figure-set entry the expression
`caption if caption else None` stores the empty-string caption as null,
identically to an absent caption, while the sentinel
`"No caption found"` is kept verbatim; and an emitted record's
`figure_set` is exactly the list of such per-image dicts. -/
theorem caption_falsy_maps_to_null (fig : FigInput) (env : ExtractOutcome)
    (figs : List FigInput) :
    (build_image_dict { fig with caption := some "" }).lookup "caption"
        = some Value.null ∧
    (build_image_dict { fig with caption := none }).lookup "caption"
        = some Value.null ∧
    build_image_dict { fig with caption := some "" }
        = build_image_dict { fig with caption := none } ∧
    (build_image_dict { fig with caption := some "No caption found" }).lookup "caption"
        = some (Value.vstr "No caption found") ∧
    dictGet (build_nxml_metadata { env with figureSet := some figs }) "figure_set"
        = some (Value.vlist (figs.map (fun f => Value.vdict (build_image_dict f)))) := by
  refine ⟨rfl, rfl, rfl, rfl, ?_⟩
  show (assocSet (assocSet (assocSet (dictUpdate (dictUpdate []
      (articleFilelistDict { env with figureSet := some figs }))
      (articleNxmlDict { env with figureSet := some figs })) "figure_set"
      (articleFigureSet { env with figureSet := some figs })) "context"
      (articleContext { env with figureSet := some figs })) "nxml"
      (optValue ({ env with figureSet := some figs } : ExtractOutcome).nxmlText)).lookup
      "figure_set" = _
  rw [lookup_assocSet_ne _ _ _ _ (by decide : ("figure_set" : String) ≠ "nxml"),
    lookup_assocSet_ne _ _ _ _ (by decide : ("figure_set" : String) ≠ "context"),
    lookup_assocSet_self]
  exact rfl

/-! ## Claim theorems: caption extraction (C1) -/

/-- A document with one figure carrying a caption and a graphic linked
to `img1.jpg`; nothing links `img2.jpg`. -/
def noMatchCaptionDoc : XML :=
  XML.elem "article" [] ""
    [XML.elem "fig" [("id", "f1")] ""
      [XML.elem "caption" [] "A real caption" [] "",
       XML.elem "graphic" [("xlink:href", "img1.jpg")] "" [] ""] ""]
    ""

/-- C1 — counterexample.  For an image identifier with *no* matching
figure-defining element, `extract_caption_from_nxml` returns `""`, not
`"No caption found"` as the claim states. -/
theorem extract_caption_no_match_counterexample :
    extract_caption_from_nxml noMatchCaptionDoc "img2.jpg" = "" ∧
    extract_caption_from_nxml noMatchCaptionDoc "img2.jpg" ≠ "No caption found" := by
  refine ⟨rfl, ?_⟩
  decide

/-- C1 — amended.  The two sentinel outputs are swapped with respect to
the claim: when no graphic (or the graphic has no parent) matches the
identifier the caption is `""`; when a defining element is found but it
contains no caption element the caption is `"No caption found"`; and a
present caption element whose text content strips to nothing yields
`""`. -/
theorem extract_caption_cases (doc : XML) (imageId : String) :
    (findGraphicParent imageId none doc = none →
        extract_caption_from_nxml doc imageId = "") ∧
    (∀ fig, findGraphicParent imageId none doc = some (some fig) →
        fig.findDesc "caption" = none →
        extract_caption_from_nxml doc imageId = "No caption found") ∧
    (∀ fig cap, findGraphicParent imageId none doc = some (some fig) →
        fig.findDesc "caption" = some cap → pyStrip cap.textContent = "" →
        extract_caption_from_nxml doc imageId = "") := by
  refine ⟨fun h => ?_, fun fig h1 h2 => ?_, fun fig cap h1 h2 h3 => ?_⟩ <;>
    unfold extract_caption_from_nxml
  · simp only [h]
  · simp only [h1, h2]
  · simp only [h1, h2, h3]

/-- The figure of the C1 witness: a defining element whose caption
element is present but empty (e.g. a purely mathematical figure). -/
def emptyCaptionFig : XML :=
  XML.elem "fig" [("id", "f1")] ""
    [XML.elem "caption" [] "" [] "",
     XML.elem "graphic" [("xlink:href", "eq1.jpg")] "" [] ""] ""

def emptyCaptionDoc : XML :=
  XML.elem "article" [] "" [emptyCaptionFig] ""

/-- C1 — witness: the empty-caption case of the amended theorem at a
concrete document. -/
theorem extract_caption_cases_witness :
    extract_caption_from_nxml emptyCaptionDoc "eq1.jpg" = "" :=
  (extract_caption_cases emptyCaptionDoc "eq1.jpg").2.2 emptyCaptionFig
    (XML.elem "caption" [] "" [] "") rfl rfl rfl

/-! ## Claim theorems: context extraction (C5) -/

/-- The claim's own scenario: figures A and B (both resolvable), a
paragraph P1 referencing A, and a paragraph P2 referencing A and
then B. -/
def contextBugDoc : XML :=
  XML.elem "article" [] ""
    [XML.elem "fig" [("id", "fig-A")] ""
        [XML.elem "graphic" [("xlink:href", "imgA.jpg")] "" [] ""] "",
     XML.elem "fig" [("id", "fig-B")] ""
        [XML.elem "graphic" [("xlink:href", "imgB.jpg")] "" [] ""] "",
     XML.elem "p" [] "See "
        [XML.elem "xref" [("ref-type", "fig"), ("rid", "fig-A")] "Fig A" [] "."] "",
     XML.elem "p" [] "Both "
        [XML.elem "xref" [("ref-type", "fig"), ("rid", "fig-A")] "Fig A" [] " and ",
         XML.elem "xref" [("ref-type", "fig"), ("rid", "fig-B")] "Fig B" [] "."] ""]
    ""

/-- C5 — the code evaluated at the claim's input.  Both figure ids
resolve in the defining-element mapping, and `context["imgA.jpg"]`
does collect P1's and then P2's cleaned text; but the extracted context
has *no entry at all* for figure B: cleaning P2 while handling its A
reference rewrote the B reference's rid attribute in place to
`imgB.jpg`, which the later iteration over that xref no longer finds in
the id map, so P2 is never recorded under B.  (The cleaned strings also
show each xref tail serialised twice — `tostring` emits the tail and
`process_element` appends it again.) -/
theorem context_second_reference_dropped :
    map_rid_to_image contextBugDoc = [("fig.A", "imgA.jpg"), ("fig.B", "imgB.jpg")] ∧
    (extract_context contextBugDoc).map Prod.fst = ["imgA.jpg"] ∧
    (extract_context contextBugDoc).lookup "imgB.jpg" = none ∧
    (extract_context contextBugDoc).lookup "imgA.jpg" = some
      ["See <xref ref-type=\"fig\" rid=\"imgA.jpg\">Fig A</xref>..",
       "Both <xref ref-type=\"fig\" rid=\"imgA.jpg\">Fig A</xref> and  and <xref ref-type=\"fig\" rid=\"imgB.jpg\">Fig B</xref>.."] := by
  refine ⟨rfl, rfl, rfl, rfl⟩

end PmcOa
